import Mathlib

/-!
Bed-allocation decision engine: a shallow embedding
====

This file embeds the core of the NHS skunkworks bed-allocation system
(virtual hospital model, restriction engine, greedy allocation agent,
discharge/arrival simulator and MCTS planner) as executable Lean
definitions, and proves the testable properties stated in the system
specification against them.

The repository ships the `hospital` and `agent` Python submodules only in
documentation form (READMEs and the walkthrough notebooks); the module
sources themselves are not part of the distributed tree.  Every definition
below is therefore modelled from the specification and from the notebook
walkthroughs, as indicated in the individual doc comments.

Numeric conventions: penalty weights are natural numbers (the notebooks use
integer weights such as 10, 8, 3); rewards and probabilities are rationals,
represented by the kernel-computable fraction type `QQ` below and
interpreted into `ℚ` by `QQ.toRat` for the algebraic statements.
-/

/-! ## Kernel-computable fractions

The planner's reward arithmetic is real-valued in the specification.  We
compute with unnormalised integer fractions (numerator/denominator) so that
every arithmetic step is structural and concrete runs of the planner reduce
inside the kernel, and we state the algebraic claims about the results via
the interpretation `QQ.toRat : QQ → ℚ`. -/

structure QQ where
  num : Int
  den : Nat
  deriving DecidableEq, Repr

namespace QQ

/-- Well-formedness: the denominator is positive.  All fraction-producing
operations below preserve it. -/
def wf (q : QQ) : Prop := 0 < q.den

instance (q : QQ) : Decidable q.wf := inferInstanceAs (Decidable (0 < q.den))

/-- Interpretation into the rationals. -/
def toRat (q : QQ) : ℚ := (q.num : ℚ) / (q.den : ℚ)

def zero : QQ := ⟨0, 1⟩

def one : QQ := ⟨1, 1⟩

def add (a b : QQ) : QQ := ⟨a.num * b.den + b.num * a.den, a.den * b.den⟩

def sub (a b : QQ) : QQ := ⟨a.num * b.den - b.num * a.den, a.den * b.den⟩

def mul (a b : QQ) : QQ := ⟨a.num * b.num, a.den * b.den⟩

/-- Division by a natural number (the only division the engine needs:
normalising penalties and averaging cumulative rewards). -/
def divNat (a : QQ) (n : Nat) : QQ := ⟨a.num, a.den * n⟩

/-- Strict order by cross multiplication (valid for positive denominators). -/
def lt (a b : QQ) : Prop := a.num * b.den < b.num * a.den

instance (a b : QQ) : Decidable (a.lt b) :=
  inferInstanceAs (Decidable (a.num * b.den < b.num * a.den))

end QQ

/-! ## Building and patient model

Modelled from the spec (§3 DATA MODEL) and the `hospital` README: the
`hospital.building` / `hospital.equipment` / `hospital.people` submodules
are not shipped in the source tree, only documented.  Following the spec's
design note, the ownership tree Hospital → Ward → Room → Bed is a nested
immutable topology, and the mutable occupancy is a separate bed-name ↦
patient map carried by the hospital. -/

/-- Patient sex (`hospital.people`). -/
inductive Sex where
  | male
  | female
  deriving DecidableEq, Repr

/-- Ward sex policy: male, female or mixed/unknown (spec §3 Ward). -/
inductive WardSex where
  | male
  | female
  | unknown
  deriving DecidableEq, Repr

/-- Hospital department (spec §3: medicine | surgery). -/
inductive Department where
  | medicine
  | surgery
  deriving DecidableEq, Repr

/-- Modelled from the spec: `hospital.people.Patient` (not under src/).
Attribute set taken from the README walkthroughs: identity, sex,
department, specialty, clinical flags, and the elapsed/expected
length-of-stay counters. -/
structure Patient where
  name : String
  sex : Sex
  department : Department
  specialty : String := "general"
  is_immunosupressed : Bool := false
  is_known_covid : Bool := false
  is_suspected_covid : Bool := false
  is_acute_surgical : Bool := false
  length_of_stay : Nat := 0
  expected_length_of_stay : Nat := 5
  deriving DecidableEq, Repr

/-- Modelled from the spec: `hospital.equipment.bed.Bed` (not under src/):
identity only; occupancy is carried by the hospital's occupancy map. -/
structure Bed where
  name : String
  deriving DecidableEq, Repr

/-- Room-level restrictions (`hospital.restrictions.room`, not under src/):
the README attaches `NoMixedSex` to bed bays.  The penalty weight is the
constructor argument. -/
inductive RoomRestriction where
  | NoMixedSex (weight : Nat)
  deriving DecidableEq, Repr

/-- Ward-level restrictions (`hospital.restrictions.ward`, not under src/):
the variants used throughout the README walkthroughs. -/
inductive WardRestriction where
  | NoSurgical (weight : Nat)
  | NoMedical (weight : Nat)
  | IncorrectSex (weight : Nat)
  | IncorrectSpecialty (weight : Nat)
  | NoKnownCovid (weight : Nat)
  | NoSuspectedCovid (weight : Nat)
  | NoNonCovid (weight : Nat)
  | NoAcuteSurgical (weight : Nat)
  deriving DecidableEq, Repr

/-- Patient-level restrictions (spec §3: derived deterministically from the
patient's flags, e.g. immunosuppressed ⇒ NeedsSideRoom). -/
inductive PatientRestriction where
  | NeedsSideRoom (weight : Nat)
  deriving DecidableEq, Repr

/-- Modelled from the spec: `hospital.building.room` (not under src/).
`isSideRoom` distinguishes the SideRoom variant from BedBay. -/
structure Room where
  name : String
  isSideRoom : Bool := false
  beds : List Bed := []
  restrictions : List RoomRestriction := []
  deriving DecidableEq, Repr

/-- Modelled from the spec: `hospital.building.ward` (not under src/):
identity, department, specialties, sex policy, ward restrictions, rooms. -/
structure Ward where
  name : String
  department : Department := Department.medicine
  sex : WardSex := WardSex.unknown
  specialty : List String := []
  restrictions : List WardRestriction := []
  rooms : List Room := []
  deriving DecidableEq, Repr

/-- Modelled from the spec: `hospital.building.building.Hospital` (not under
src/).  The occupancy map assigns at most one patient per bed name; the
admission operation maintains this. -/
structure Hospital where
  name : String
  wards : List Ward := []
  occupancy : List (String × Patient) := []
  deriving DecidableEq, Repr

namespace Hospital

/-- All beds of the hospital, in topology order (derived view, spec §3). -/
def beds (h : Hospital) : List Bed :=
  h.wards.flatMap fun w => w.rooms.flatMap fun r => r.beds

/-- All rooms of the hospital (derived view, spec §3). -/
def rooms (h : Hospital) : List Room :=
  h.wards.flatMap fun w => w.rooms

/-- All currently admitted patients, flattened from the occupancy map. -/
def patients (h : Hospital) : List Patient :=
  h.occupancy.map (·.2)

/-- The occupant of a named bed, if any. -/
def occupantOf (h : Hospital) (bedName : String) : Option Patient :=
  (h.occupancy.find? fun e => e.1 == bedName).map (·.2)

/-- Whether a bed of this name exists in the topology. -/
def bedExists (h : Hospital) (bedName : String) : Bool :=
  h.beds.any fun b => b.name == bedName

/-- Whether the given patient is currently admitted (by identity/name). -/
def isAdmitted (h : Hospital) (p : Patient) : Bool :=
  h.occupancy.any fun e => e.2.name == p.name

/-- The `get_empty_beds` view: every bed of the topology with no occupant, in
topology order (spec §6). -/
def get_empty_beds (h : Hospital) : List Bed :=
  h.beds.filter fun b => (h.occupantOf b.name).isNone

/-- Failures of invalid operations (spec §7b): surfaced to the caller as a
distinct failure; the operation is all-or-nothing. -/
inductive AllocError where
  | noSuchBed
  | bedOccupied
  | alreadyAdmitted
  | notAdmitted
  deriving DecidableEq, Repr

/-- Modelled from the spec: `hospital.admit(patient, bed)` (not under src/).
Admits the patient to the named bed; fails without mutating anything if the
bed does not exist, is occupied, or the patient is already admitted. -/
def admitPatient (h : Hospital) (p : Patient) (bedName : String) : Except AllocError Hospital :=
  if h.bedExists bedName then
    if (h.occupantOf bedName).isSome then
      .error .bedOccupied
    else if h.isAdmitted p then
      .error .alreadyAdmitted
    else
      .ok { h with occupancy := (bedName, p) :: h.occupancy }
  else
    .error .noSuchBed

/-- Modelled from the spec: `hospital.discharge(patient)` (not under src/).
Unbinds the patient from its bed and removes it from hospital state; fails
if the patient is not currently admitted. -/
def discharge (h : Hospital) (p : Patient) : Except AllocError Hospital :=
  if h.isAdmitted p then
    .ok { h with occupancy := h.occupancy.filter fun e => !(e.2.name == p.name) }
  else
    .error .notAdmitted

/-- Modelled from the spec: `hospital.clear()` (not under src/): discharges
every admitted patient (README §2.3: "discharge all patients"). -/
def clear (h : Hospital) : Hospital :=
  { h with occupancy := [] }

end Hospital

/-! ## Restriction engine

Modelled from the spec (§4.1): for every ward, evaluate each ward-level
restriction against that ward's resident patients and attributes; for every
room, each room-level restriction against the patients co-located in the
room; for every admitted patient, each patient-level restriction against
the room it occupies.  Identifiers are at instance granularity: they embed
the owning ward/room/patient name, so equal rule types attached to
different wards are distinguished. -/

namespace Hospital

/-- Patients resident in a given room (by the room's bed names). -/
def roomPatients (h : Hospital) (r : Room) : List Patient :=
  r.beds.filterMap fun b => h.occupantOf b.name

/-- Patients resident in a given ward. -/
def wardPatients (h : Hospital) (w : Ward) : List Patient :=
  w.rooms.flatMap fun r => h.roomPatients r

/-- The room containing a given bed name, if any. -/
def roomOfBed (h : Hospital) (bedName : String) : Option Room :=
  h.rooms.find? fun r => r.beds.any fun b => b.name == bedName

end Hospital

namespace WardRestriction

def weight : WardRestriction → Nat
  | .NoSurgical w => w
  | .NoMedical w => w
  | .IncorrectSex w => w
  | .IncorrectSpecialty w => w
  | .NoKnownCovid w => w
  | .NoSuspectedCovid w => w
  | .NoNonCovid w => w
  | .NoAcuteSurgical w => w

def ruleName : WardRestriction → String
  | .NoSurgical _ => "NoSurgical"
  | .NoMedical _ => "NoMedical"
  | .IncorrectSex _ => "IncorrectSex"
  | .IncorrectSpecialty _ => "IncorrectSpecialty"
  | .NoKnownCovid _ => "NoKnownCovid"
  | .NoSuspectedCovid _ => "NoSuspectedCovid"
  | .NoNonCovid _ => "NoNonCovid"
  | .NoAcuteSurgical _ => "NoAcuteSurgical"

/-- Whether a patient matches a ward sex policy. -/
def sexMismatch (ws : WardSex) (s : Sex) : Bool :=
  match ws, s with
  | .male, .female => true
  | .female, .male => true
  | _, _ => false

/-- Violation of a ward-level restriction by the ward's residents
(one flag per restriction instance). -/
def violated (w : Ward) (ps : List Patient) : WardRestriction → Bool
  | .NoSurgical _ => ps.any fun p => p.department == Department.surgery
  | .NoMedical _ => ps.any fun p => p.department == Department.medicine
  | .IncorrectSex _ => ps.any fun p => sexMismatch w.sex p.sex
  | .IncorrectSpecialty _ => ps.any fun p => !(w.specialty.contains p.specialty)
  | .NoKnownCovid _ => ps.any fun p => p.is_known_covid
  | .NoSuspectedCovid _ => ps.any fun p => p.is_suspected_covid
  | .NoNonCovid _ => ps.any fun p => !(p.is_known_covid || p.is_suspected_covid)
  | .NoAcuteSurgical _ => ps.any fun p => p.is_acute_surgical

end WardRestriction

namespace RoomRestriction

def weight : RoomRestriction → Nat
  | .NoMixedSex w => w

def ruleName : RoomRestriction → String
  | .NoMixedSex _ => "NoMixedSex"

/-- Violation of a room-level restriction by the room's co-located
patients: `NoMixedSex` fires when both sexes are present. -/
def violated (ps : List Patient) : RoomRestriction → Bool
  | .NoMixedSex _ =>
    (ps.any fun p => p.sex == Sex.male) && (ps.any fun p => p.sex == Sex.female)

end RoomRestriction

namespace PatientRestriction

def weight : PatientRestriction → Nat
  | .NeedsSideRoom w => w

def ruleName : PatientRestriction → String
  | .NeedsSideRoom _ => "NeedsSideRoom"

/-- Violation of a patient-level restriction against the room the patient
occupies: `NeedsSideRoom` fires when that room is not a side room. -/
def violated (h : Hospital) (bedName : String) : PatientRestriction → Bool
  | .NeedsSideRoom _ =>
    match h.roomOfBed bedName with
    | some r => !r.isSideRoom
    | none => false

end PatientRestriction

/-- Patient-level restrictions derived deterministically from the patient's
flags (spec §3; README: immunosuppression attaches a weight-10
NeedsSideRoom). -/
def Patient.derivedRestrictions (p : Patient) : List PatientRestriction :=
  if p.is_immunosupressed then [.NeedsSideRoom 10] else []

namespace Hospital

/-- One evaluated restriction instance: its instance identifier, its
penalty weight and whether it is violated in the current state. -/
def restrictionInstances (h : Hospital) : List (String × Nat × Bool) :=
  (h.wards.flatMap fun w =>
    w.restrictions.map fun r =>
      (w.name ++ "/" ++ r.ruleName, r.weight, r.violated w (h.wardPatients w))) ++
  (h.wards.flatMap fun w =>
    w.rooms.flatMap fun rm =>
      rm.restrictions.map fun r =>
        (w.name ++ "/" ++ rm.name ++ "/" ++ r.ruleName, r.weight,
          r.violated (h.roomPatients rm))) ++
  (h.occupancy.flatMap fun e =>
    e.2.derivedRestrictions.map fun r =>
      (e.2.name ++ "/" ++ r.ruleName, r.weight, r.violated h e.1))

/-- Result of `eval_restrictions`: aggregate penalty and the identifiers of
the violated restriction instances. -/
structure EvalResult where
  score : Nat
  names : List String
  deriving DecidableEq, Repr

/-- The engine's accumulation loop over evaluated instances: a violated
instance contributes its weight to the running score and its identifier to
the name list. -/
def evalLoop : List (String × Nat × Bool) → Nat × List String
  | [] => (0, [])
  | (id, w, v) :: rest =>
    let acc := evalLoop rest
    if v then (w + acc.1, id :: acc.2) else acc

/-- Modelled from the spec: `hospital.eval_restrictions()` (not under
src/): walk every ward / room / admitted patient, evaluate each attached
restriction, and accumulate `{score, names}`. -/
def eval_restrictions (h : Hospital) : EvalResult :=
  let acc := evalLoop h.restrictionInstances
  ⟨acc.1, acc.2⟩

/-- The specification's description of the same value (spec §4.1): `score`
is the sum of penalty weights of all violated restrictions and `names` the
set of violated-restriction identifiers — stated by brute enumeration:
filter the violated instances, sum their weights, list their names. -/
def eval_restrictions_spec (h : Hospital) : EvalResult :=
  let viol := h.restrictionInstances.filter fun e => e.2.2
  ⟨(viol.map fun e => e.2.1).sum, viol.map fun e => e.1⟩

end Hospital

/-! ## Greedy agent

Modelled from the spec (§4.2) and notebook 2: `agent.policy.greedy_suggestions`
is not under src/.  The agent enumerates every currently-empty bed in bed
identity (topology) order, hypothetically admits the patient, runs the
restriction engine, records the score and violated names, and reverts the
admission; the recorded candidates are then sorted ascending by score with
ties broken by bed identity order, and the first `top_n` are returned. -/

/-- Fallback projection out of `Except` (used after an operation that is
proved to succeed, to keep the state-passing loop total). -/
def Except.getD {ε α : Type} (e : Except ε α) (dflt : α) : α :=
  match e with
  | .ok a => a
  | .error _ => dflt

/-- One greedy candidate: the bed, the whole-hospital penalty score of the
hypothetical admission, the violated restriction identifiers, and the
position of the bed in the empty-bed enumeration (the tie-break key). -/
structure Suggestion where
  bed : String
  score : Nat
  names : List String
  idx : Nat
  deriving DecidableEq, Repr

/-- The hypothetical-evaluation pass of the greedy agent: for each
(indexed) empty bed, admit → evaluate → revert on the threaded hospital
state.  Returns the recorded candidates together with the final state of
the threaded hospital (which theorem `greedy_noMutation` proves equal to
the input state). -/
def greedyPass (p : Patient) : List (Nat × Bed) → Hospital → List Suggestion × Hospital
  | [], h => ([], h)
  | (i, b) :: rest, h =>
    match h.admitPatient p b.name with
    | .ok h1 =>
      let ev := h1.eval_restrictions
      let h2 := (h1.discharge p).getD h1
      let acc := greedyPass p rest h2
      (⟨b.name, ev.score, ev.names, i⟩ :: acc.1, acc.2)
    | .error _ => greedyPass p rest h

/-- The greedy ranking order: ascending by score, ties broken by bed
identity (enumeration) order. -/
def suggestionLE (a b : Suggestion) : Prop :=
  a.score < b.score ∨ (a.score = b.score ∧ a.idx ≤ b.idx)

instance : DecidableRel suggestionLE := fun a b =>
  inferInstanceAs (Decidable (a.score < b.score ∨ (a.score = b.score ∧ a.idx ≤ b.idx)))

instance : IsTotal Suggestion suggestionLE where
  total a b := by
    unfold suggestionLE
    rcases Nat.lt_trichotomy a.score b.score with h | h | h
    · exact Or.inl (Or.inl h)
    · rcases Nat.le_total a.idx b.idx with h' | h'
      · exact Or.inl (Or.inr ⟨h, h'⟩)
      · exact Or.inr (Or.inr ⟨h.symm, h'⟩)
    · exact Or.inr (Or.inl h)

instance : IsTrans Suggestion suggestionLE where
  trans a b c hab hbc := by
    unfold suggestionLE at *
    rcases hab with h1 | ⟨h1, h1'⟩ <;> rcases hbc with h2 | ⟨h2, h2'⟩
    · exact Or.inl (h1.trans h2)
    · exact Or.inl (h2 ▸ h1)
    · exact Or.inl (h1 ▸ h2)
    · exact Or.inr ⟨h1.trans h2, h1'.trans h2'⟩

/-- Modelled from the spec: `agent.policy.greedy_suggestions` (not under
src/): rank all empty beds for the patient by resulting penalty and return
the `top_n` best, together with the final threaded hospital state. -/
def greedy_suggestions (h : Hospital) (p : Patient) (top_n : Nat) :
    List Suggestion × Hospital :=
  let pass := greedyPass p h.get_empty_beds.enum h
  ((List.insertionSort suggestionLE pass.1).take top_n, pass.2)

/-! ## Discharge/arrival simulator

Modelled from the spec (§4.3) and notebook 3 (§4 Simulation):
`agent.simulation` is not under src/.  The simulator (i) increments every
admitted patient's length-of-stay counter, (ii) draws a discharge decision
for each patient with a probability that grows as the stay approaches the
expected stay, (iii) assigns the time step's arriving patients to uniformly
random empty beds, dropping (and counting) patients for whom no bed
remains.  The random source is an explicitly threaded LCG state, as the
spec requires an injectable source. -/

/-- A linear congruential pseudo-random step (explicit random source). -/
def lcg (s : Nat) : Nat :=
  (s * 1103515245 + 12345) % 2147483648

/-- Draw a number below `k` (for `k > 0`) and the successor RNG state. -/
def randBelow (s k : Nat) : Nat × Nat :=
  let s' := lcg s
  (s' % k, s')

/-- Modelled from the spec: the discharge-probability curve (spec §4.3
leaves the exact curve a tunable; it must be monotone, low when freshly
admitted, and reach certainty at/after the expected stay).  We use the
anchored ramp `min 1 (los / elos)`, with probability 1 when the expected
stay is zero. -/
def dischargeProbQQ (los elos : Nat) : QQ :=
  if elos = 0 then QQ.one
  else if elos ≤ los then QQ.one
  else ⟨los, elos⟩

/-- The discharge probability of a patient in its current state. -/
def Patient.dischargeProb (p : Patient) : QQ :=
  dischargeProbQQ p.length_of_stay p.expected_length_of_stay

/-- Bernoulli draw against a fraction: draw `r` uniform in [0,1000) and
succeed when `r/1000 < prob`. -/
def bernoulliQQ (prob : QQ) (s : Nat) : Bool × Nat :=
  let d := randBelow s 1000
  (decide ((d.1 : Int) * prob.den < prob.num * 1000), d.2)

/-- Age every admitted patient by one time unit (simulator step 1). -/
def Hospital.ageOccupants (h : Hospital) : Hospital :=
  { h with occupancy := h.occupancy.map fun e =>
      (e.1, { e.2 with length_of_stay := e.2.length_of_stay + 1 }) }

/-- Discharge draws over the occupancy list (simulator step 2). -/
def dischargeDraws : List (String × Patient) → Nat → List (String × Patient) × Nat
  | [], s => ([], s)
  | e :: rest, s =>
    let d := bernoulliQQ e.2.dischargeProb s
    let acc := dischargeDraws rest d.2
    if d.1 then acc else (e :: acc.1, acc.2)

/-- Assign arriving patients to uniformly random empty beds (simulator
step 3, the "default policy"); bedless arrivals are dropped and counted. -/
def assignArrivals : List Patient → Hospital → Nat → Hospital × Nat × Nat
  | [], h, s => (h, 0, s)
  | p :: rest, h, s =>
    let empties := h.get_empty_beds
    if hne : empties.length = 0 then
      let acc := assignArrivals rest h s
      (acc.1, acc.2.1 + 1, acc.2.2)
    else
      let d := randBelow s empties.length
      let b := empties.get ⟨d.1, Nat.mod_lt _ (Nat.pos_of_ne_zero hne)⟩
      let h' := { h with occupancy := (b.name, p) :: h.occupancy }
      assignArrivals rest h' d.2

/-- Modelled from the spec: `advance(hospital, arriving_patients, rng)`
(spec §4.3, not under src/): age, discharge, then admit arrivals; returns
the new state, the count of dropped arrivals, and the RNG state. -/
def Hospital.advance (h : Hospital) (batch : List Patient) (s : Nat) :
    Hospital × Nat × Nat :=
  let aged := h.ageOccupants
  let disc := dischargeDraws aged.occupancy s
  assignArrivals batch { aged with occupancy := disc.1 } disc.2

/-! ## MCTS planner

Modelled from the spec (§4.4) and notebook 3: `agent.run_mcts` is not under
src/.  Each tree node owns a cloned hospital snapshot, its time-step index,
the action that produced it, a visit count, a cumulative reward, and its
children.  One iteration performs selection (UCB argmax while fully
expanded), expansion (attach a child per legal action — every injective
assignment of the step's arrival batch to empty beds), simulation (a single
stochastic trajectory to the horizon) and backpropagation (the discounted
reward is added along the path, each visit count incremented by one).

The UCB exploration term `sqrt(2 ln N / n)` is irrational; it is computed
here by the rational surrogates `sqrtQQ`/`lnQQ` below (integer Newton
iteration, and `ln N ≈ log₂ N · 0.693`), which keeps every planner step a
concrete kernel-computable function.  No claim constrains the numeric value
of the exploration term. -/

/-- Integer Newton iteration for square roots (fuel-bounded so that the
recursion is structural). -/
def isqrtGo : Nat → Nat → Nat → Nat
  | 0, _, x => x
  | fuel + 1, n, x =>
    let next := (x + n / x) / 2
    if next < x then isqrtGo fuel n next else x

/-- Floor square root of a natural number. -/
def isqrt (n : Nat) : Nat :=
  if n ≤ 1 then n else isqrtGo 64 n n

/-- Fuel-bounded floor base-2 logarithm. -/
def log2Go : Nat → Nat → Nat
  | 0, _ => 0
  | fuel + 1, n => if n ≤ 1 then 0 else 1 + log2Go fuel (n / 2)

/-- Rational surrogate for `ln n`: `log₂ n · 0.693`. -/
def lnQQ (n : Nat) : QQ :=
  ⟨693 * log2Go 64 n, 1000⟩

/-- Rational surrogate for the square root of a non-negative fraction, with
six decimal digits of working precision. -/
def sqrtQQ (q : QQ) : QQ :=
  if q.num ≤ 0 ∨ q.den = 0 then QQ.zero
  else ⟨isqrt (q.num.toNat * 1000000000000 / q.den), 1000000⟩

/-- Modelled from the spec: `agent.utils.normalise_ward_penalties` (not
under src/): the reward normalisation constant, here the total weight of
every restriction instance of the hospital (so that a state's penalty never
exceeds it), floored at 1. -/
def maxPenaltyNormalisation (h : Hospital) : Nat :=
  max 1 (h.restrictionInstances.map fun e => e.2.1).sum

/-- Accumulating loop of the discounted-reward computation: `acc` is the
running sum and `gp` the current power of the discount factor. -/
def computeRewardGo (γ : QQ) (maxP : Nat) : List Nat → QQ → QQ → QQ
  | [], acc, _ => acc
  | p :: ps, acc, gp =>
    computeRewardGo γ maxP ps
      (acc.add (gp.mul (QQ.one.sub (QQ.divNat ⟨(p : Int), 1⟩ maxP)))) (gp.mul γ)

/-- The trajectory reward backpropagated after a rollout (spec §4.4):
`R = Σ_{i} γ^i · (1 − penalty_i / maxP)` over the trajectory's
restriction-engine scores, computed by a single accumulation pass. -/
def computeReward (γ : QQ) (maxP : Nat) (pens : List Nat) : QQ :=
  computeRewardGo γ maxP pens QQ.zero QQ.one

/-- A decision-tree node (spec §3): cloned hospital snapshot, time-step
index, generating action, visit count, cumulative reward, children. -/
inductive MCTSNode where
  | mk (hospital : Hospital) (timeStep : Nat) (action : List (String × Patient))
      (visits : Nat) (totalReward : QQ) (children : List MCTSNode)

namespace MCTSNode

def hospital : MCTSNode → Hospital
  | .mk h _ _ _ _ _ => h

def timeStep : MCTSNode → Nat
  | .mk _ t _ _ _ _ => t

def action : MCTSNode → List (String × Patient)
  | .mk _ _ a _ _ _ => a

def visits : MCTSNode → Nat
  | .mk _ _ _ v _ _ => v

def totalReward : MCTSNode → QQ
  | .mk _ _ _ _ r _ => r

def children : MCTSNode → List MCTSNode
  | .mk _ _ _ _ _ k => k

/-- Backpropagation update at one node: record the new sample in the
cumulative reward, increment the visit count, and install the updated
children. -/
def reVisit : MCTSNode → List MCTSNode → QQ → MCTSNode
  | .mk h t a v tot _, kids, r => .mk h t a (v + 1) (tot.add r) kids

/-- Mean reward: the running average of the backpropagated samples. -/
def meanReward (n : MCTSNode) : QQ :=
  n.totalReward.divNat n.visits

end MCTSNode

/-- Legal actions of a time step (spec §4.4 Expansion): every injective
assignment of the arriving batch to currently-empty beds; for an empty
batch the only action is the no-op. -/
def legalActions : List Patient → List Bed → List (List (String × Patient))
  | [], _ => [[]]
  | p :: ps, beds =>
    beds.flatMap fun b =>
      (legalActions ps (beds.erase b)).map fun rest => (b.name, p) :: rest

/-- Child snapshot: clone of the parent's hospital with the action's
admissions applied. -/
def applyAction (h : Hospital) (act : List (String × Patient)) : Hospital :=
  act.foldl
    (fun acc e =>
      match acc.admitPatient e.2 e.1 with
      | .ok h2 => h2
      | .error _ => acc)
    h

/-- Simulate forward one trajectory: advance through the remaining arrival
batches, recording the restriction-engine score after each step. -/
def rolloutPens : List (List Patient) → Hospital → Nat → List Nat × Nat
  | [], _, s => ([], s)
  | batch :: rest, h, s =>
    let adv := h.advance batch s
    let acc := rolloutPens rest adv.1 adv.2.2
    (adv.1.eval_restrictions.score :: acc.1, acc.2)

/-- Rollout from a node state at time step `t` (spec §4.4 Simulation): the
trajectory's penalties are the state's own score followed by the scores
after each simulated step to the horizon; the result is the discounted
reward of that trajectory and the successor RNG state. -/
def rolloutFrom (arr : List (List Patient)) (γ : QQ) (maxP : Nat)
    (h : Hospital) (t : Nat) (s : Nat) : QQ × Nat :=
  let sim := rolloutPens (arr.drop t) h s
  (computeReward γ maxP (h.eval_restrictions.score :: sim.1), sim.2)

/-- The UCB tree-policy score of a child under a parent with `pv` visits
(spec §4.4 Selection), with an effectively-infinite score for unvisited
children. -/
def ucbScore (pv : Nat) (c : MCTSNode) : QQ :=
  if c.visits = 0 then ⟨1000000000, 1⟩
  else c.meanReward.add (sqrtQQ (((lnQQ pv).mul ⟨2, 1⟩).divNat c.visits))

/-- Index of the UCB-maximal child (first maximum wins, deterministic). -/
def bestChildIdx (pv : Nat) (kids : List MCTSNode) : Nat :=
  (kids.foldl
    (fun acc c =>
      let u := ucbScore pv c
      if (acc.2.2).lt u then (acc.2.1, acc.2.1 + 1, u)
      else (acc.1, acc.2.1 + 1, acc.2.2))
    ((0, 0, ⟨-1000000000, 1⟩) : Nat × Nat × QQ)).1

/-- The body of one planner iteration below the current node, parametric in
the recursive descent `recur` (invoked with one unit less fuel): returns
the node's updated children, the reward sample to backpropagate and the
successor RNG state.  Branches: horizon reached — the sample is the node's
own immediate reward; no children yet — expand every legal action and roll
out from the first new child (or from the node itself when there is no
legal action); some child unvisited — roll out from the first such child;
otherwise — descend into the UCB-maximal child. -/
def iterBody (arr : List (List Patient)) (γ : QQ) (maxP : Nat)
    (recur : MCTSNode → Nat → MCTSNode × QQ × Nat)
    (node : MCTSNode) (s : Nat) : List MCTSNode × QQ × Nat :=
  match node with
  | .mk h t _ v _ kids =>
    if arr.length ≤ t then
      (kids, computeReward γ maxP [h.eval_restrictions.score], s)
    else if kids.isEmpty then
      match legalActions (arr.getD t []) h.get_empty_beds with
      | [] =>
        let r := rolloutFrom arr γ maxP h t s
        ([], r.1, r.2)
      | a :: rest =>
        let firstChild := MCTSNode.mk (applyAction h a) (t + 1) a 0 QQ.zero []
        let others := rest.map fun a' =>
          MCTSNode.mk (applyAction h a') (t + 1) a' 0 QQ.zero []
        let r := rolloutFrom arr γ maxP firstChild.hospital (t + 1) s
        (firstChild.reVisit [] r.1 :: others, r.1, r.2)
    else
      match kids.findIdx? (fun c => c.visits == 0) with
      | some i =>
        match kids[i]? with
        | some c =>
          let r := rolloutFrom arr γ maxP c.hospital c.timeStep s
          (kids.set i (c.reVisit c.children r.1), r.1, r.2)
        | none => (kids, QQ.zero, s)
      | none =>
        match kids[bestChildIdx v kids]? with
        | some c =>
          let r := recur c s
          (kids.set (bestChildIdx v kids) r.1, r.2.1, r.2.2)
        | none => (kids, QQ.zero, s)

/-- One full selection–expansion–simulation–backpropagation iteration from
a node, fuel-bounded by the tree depth (the horizon bounds the depth, so
the fuel never runs out in a run). -/
def mctsIteration (arr : List (List Patient)) (γ : QQ) (maxP : Nat) :
    Nat → MCTSNode → Nat → MCTSNode × QQ × Nat
  | 0, node, s => (node.reVisit node.children QQ.zero, QQ.zero, s)
  | fuel + 1, node, s =>
    let r := iterBody arr γ maxP (mctsIteration arr γ maxP fuel) node s
    (node.reVisit r.1 r.2.1, r.2.1, r.2.2)

/-- Planner state: the real (caller-owned) hospital, the search tree and
the RNG state.  The planner reads the real hospital only to seed the root's
clone; spec §5 requires that it never mutates it. -/
structure PlannerState where
  real : Hospital
  root : MCTSNode
  rng : Nat

/-- Explicit deep copy of a hospital value (cloning on expansion; in the
pure embedding a structural rebuild). -/
def Hospital.clone (h : Hospital) : Hospital :=
  ⟨h.name, h.wards, h.occupancy⟩

/-- Root node: a clone of the current real hospital at time step 0. -/
def plannerInit (h : Hospital) (seed : Nat) : PlannerState :=
  { real := h, root := .mk h.clone 0 [] 0 QQ.zero [], rng := seed }

/-- One planner iteration on the planner state: only the tree and the RNG
state change. -/
def plannerStep (arr : List (List Patient)) (γ : QQ) (maxP fuel : Nat)
    (st : PlannerState) : PlannerState :=
  let r := mctsIteration arr γ maxP fuel st.root st.rng
  { real := st.real, root := r.1, rng := r.2.2 }

/-- The fixed-budget iteration loop (spec §4.4 Termination). -/
def plannerLoop (arr : List (List Patient)) (γ : QQ) (maxP fuel : Nat) :
    Nat → PlannerState → PlannerState
  | 0, st => st
  | k + 1, st => plannerLoop arr γ maxP fuel k (plannerStep arr γ maxP fuel st)

/-- Modelled from the spec: `agent.run_mcts.run_mcts(hospital, arrivals,
discount_factor, n_iterations)` (not under src/): run the configured number
of iterations from a root clone of the hospital and return the root,
together with the caller's (threaded, unmutated) hospital. -/
def run_mcts (h : Hospital) (arr : List (List Patient)) (γ : QQ)
    (n_iterations : Nat) (seed : Nat) : MCTSNode × Hospital :=
  let maxP := maxPenaltyNormalisation h
  let st := plannerLoop arr γ maxP (arr.length + 1) n_iterations
    (plannerInit h seed)
  (st.root, st.real)

/-- One recommendation of the planner's output (notebook 3: action,
immediate score, violated restrictions, ucb score, visit count). -/
structure MctsSuggestion where
  action : List (String × Patient)
  score : Nat
  violated_restrictions : List String
  ucb_score : QQ
  visit_count : Nat

/-- Modelled from the spec: `agent.run_mcts.construct_mcts_output` (not
under src/): one recommendation per root child, exposing the action, its
immediate penalty and violated restrictions, its ucb score and its visit
count. -/
def construct_mcts_output (root : MCTSNode) : List MctsSuggestion :=
  root.children.map fun c =>
    { action := c.action
      score := c.hospital.eval_restrictions.score
      violated_restrictions := c.hospital.eval_restrictions.names
      ucb_score := ucbScore root.visits c
      visit_count := c.visits }

/-! ## Concrete fixtures

Small hospital configurations from the walkthrough scenarios, used by the
scenario claims and the concrete instantiations of the universally
quantified theorems. -/

/-- Notebook 3's simplified environment shrunk to the spec's 4-bed
scenario: a medical and a surgical ward of two beds each, one bed of each
occupied. -/
def mctsScenarioHospital : Hospital :=
  { name := "Hospital"
    wards := [
      { name := "MedicalWard"
        department := .medicine
        restrictions := [.NoSurgical 10]
        rooms := [{ name := "R000", beds := [Bed.mk "B000", Bed.mk "B001"] }] },
      { name := "SurgicalWard"
        department := .surgery
        restrictions := [.NoMedical 5]
        rooms := [{ name := "R001", beds := [Bed.mk "B002", Bed.mk "B003"] }] }]
    occupancy := [
      ("B000", { name := "occM", sex := .male, department := .medicine }),
      ("B002", { name := "occS", sex := .male, department := .surgery })] }

/-- The patient arriving at t = 0 in the 4-bed scenario. -/
def mctsScenarioPatient : Patient :=
  { name := "patient_0", sex := .female, department := .medicine }

/-- The MCTS run of the spec's 4-bed scenario: 2 empty beds, the arriving
patient as the singleton batch at index 0, horizon 1, 50 iterations. -/
def mctsScenarioRun : MCTSNode × Hospital :=
  run_mcts mctsScenarioHospital [[mctsScenarioPatient]] ⟨9, 10⟩ 50 42

/-- Greedy fixture: two empty beds where admitting the patient to bed
"BX" violates a weight-10 rule and to bed "BY" a weight-3 rule ("BX" comes
first in bed identity order). -/
def greedyFixtureHospital : Hospital :=
  { name := "G"
    wards := [
      { name := "WardX"
        department := .surgery
        restrictions := [.NoMedical 10]
        rooms := [{ name := "RX", beds := [Bed.mk "BX"] }] },
      { name := "WardY"
        department := .surgery
        restrictions := [.NoMedical 3]
        rooms := [{ name := "RY", beds := [Bed.mk "BY"] }] }]
    occupancy := [] }

/-- The medical patient of the greedy fixture. -/
def greedyFixturePatient : Patient :=
  { name := "patient", sex := .female, department := .medicine }

/-- A fully occupied hospital: a single bed with an occupant, so there are
zero empty beds. -/
def fullHospital : Hospital :=
  { name := "Full"
    wards := [
      { name := "W"
        rooms := [{ name := "R", beds := [Bed.mk "B0"] }] }]
    occupancy := [("B0", { name := "occ", sex := .male, department := .medicine })] }

/-- A one-bed hospital with the bed empty. -/
def miniHospital : Hospital :=
  { name := "Mini"
    wards := [
      { name := "W"
        rooms := [{ name := "R", beds := [Bed.mk "B0"] }] }]
    occupancy := [] }

/-- A concrete visited tree node (used to instantiate the backpropagation
facts at a node with a positive visit count). -/
def sampleNode : MCTSNode :=
  .mk miniHospital 1 [] 1 ⟨1, 2⟩ []

/-! ## Theorems -/

theorem QQ.wf_add {a b : QQ} (ha : a.wf) (hb : b.wf) : (a.add b).wf :=
  Nat.mul_pos ha hb

theorem QQ.wf_sub {a b : QQ} (ha : a.wf) (hb : b.wf) : (a.sub b).wf :=
  Nat.mul_pos ha hb

theorem QQ.wf_mul {a b : QQ} (ha : a.wf) (hb : b.wf) : (a.mul b).wf :=
  Nat.mul_pos ha hb

theorem QQ.wf_divNat {a : QQ} {n : Nat} (ha : a.wf) (hn : 0 < n) : (a.divNat n).wf :=
  Nat.mul_pos ha hn

theorem QQ.toRat_zero : toRat zero = 0 := by simp [toRat, zero]

theorem QQ.toRat_one : toRat one = 1 := by simp [toRat, one]

theorem QQ.toRat_add {a b : QQ} (ha : a.wf) (hb : b.wf) :
    toRat (a.add b) = toRat a + toRat b := by
  have ha' : (a.den : ℚ) ≠ 0 := Nat.cast_ne_zero.mpr (Nat.pos_iff_ne_zero.mp ha)
  have hb' : (b.den : ℚ) ≠ 0 := Nat.cast_ne_zero.mpr (Nat.pos_iff_ne_zero.mp hb)
  simp only [toRat, add]
  push_cast
  field_simp

theorem QQ.toRat_sub {a b : QQ} (ha : a.wf) (hb : b.wf) :
    toRat (a.sub b) = toRat a - toRat b := by
  have ha' : (a.den : ℚ) ≠ 0 := Nat.cast_ne_zero.mpr (Nat.pos_iff_ne_zero.mp ha)
  have hb' : (b.den : ℚ) ≠ 0 := Nat.cast_ne_zero.mpr (Nat.pos_iff_ne_zero.mp hb)
  simp only [toRat, sub]
  push_cast
  field_simp
  ring

theorem QQ.toRat_mul (a b : QQ) : toRat (a.mul b) = toRat a * toRat b := by
  simp only [toRat, mul]
  push_cast
  rw [div_mul_div_comm]

theorem QQ.toRat_divNat (a : QQ) (n : Nat) :
    toRat (a.divNat n) = toRat a / (n : ℚ) := by
  simp only [toRat, divNat]
  push_cast
  rw [div_div]

/-- The accumulation loop of the restriction engine agrees with
filter/sum/map over the evaluated instances. -/
theorem Hospital.evalLoop_eq (l : List (String × Nat × Bool)) :
    Hospital.evalLoop l =
      (((l.filter fun e => e.2.2).map fun e => e.2.1).sum,
        (l.filter fun e => e.2.2).map fun e => e.1) := by
  induction l with
  | nil => rfl
  | cons e rest ih =>
    obtain ⟨id, w, v⟩ := e
    cases v with
    | true => simp [Hospital.evalLoop, List.filter_cons, ih]
    | false => simp [Hospital.evalLoop, List.filter_cons, ih]

/-- C1: for every hospital state, `eval_restrictions` returns a score equal
to the sum of the penalty weights of exactly those ward-level, room-level
and patient-level restriction instances that are violated in that state,
and a names field listing exactly the identifiers of those violated
instances (identifiers embed the owning ward/room/patient name, so equal
rule types attached to different wards are distinguished). -/
theorem eval_restrictions_correct (h : Hospital) :
    h.eval_restrictions = h.eval_restrictions_spec := by
  simp [Hospital.eval_restrictions, Hospital.eval_restrictions_spec,
    Hospital.evalLoop_eq]

/-- A successful admission leaves the prior occupancy intact below a new
entry for the admitted patient. -/
theorem Hospital.admit_ok_iff {h : Hospital} {p : Patient} {b : String} {h₁ : Hospital}
    (hadm : h.admitPatient p b = .ok h₁) :
    h.bedExists b = true ∧ (h.occupantOf b).isSome = false ∧
      h.isAdmitted p = false ∧ h₁ = { h with occupancy := (b, p) :: h.occupancy } := by
  unfold Hospital.admitPatient at hadm
  split at hadm
  · split at hadm
    · exact absurd hadm (by simp)
    · split at hadm
      · exact absurd hadm (by simp)
      · refine ⟨by assumption, by simp_all, by simp_all, ?_⟩
        exact (Except.ok.injEq _ _ |>.mp hadm).symm
  · exact absurd hadm (by simp)

/-- Discharging right after a successful admission restores the original
hospital state exactly. -/
theorem Hospital.discharge_after_admit {h : Hospital} {p : Patient} {b : String}
    {h₁ : Hospital} (hadm : h.admitPatient p b = .ok h₁) :
    h₁.discharge p = .ok h := by
  obtain ⟨-, -, hnadm, rfl⟩ := Hospital.admit_ok_iff hadm
  have hany : h.occupancy.any (fun e => e.2.name == p.name) = false := by
    simpa [Hospital.isAdmitted] using hnadm
  have hocc : ∀ e ∈ h.occupancy, (!(e.2.name == p.name)) = true := by
    intro e he
    have := List.any_eq_false.mp hany e he
    simpa using this
  unfold Hospital.discharge
  have hself : Hospital.isAdmitted { h with occupancy := (b, p) :: h.occupancy } p = true := by
    simp [Hospital.isAdmitted]
  rw [if_pos hself]
  have hfilter : ((b, p) :: h.occupancy).filter (fun e => !(e.2.name == p.name)) =
      h.occupancy := by
    simp only [List.filter_cons]
    rw [if_neg (by simp)]
    exact List.filter_eq_self.mpr hocc
  simp only [hfilter]

/-- C9: for every hospital, empty existing bed and not-currently-admitted
patient, `admit` succeeds and a subsequent `discharge` of the same patient
restores the prior hospital state exactly (in particular the bed is empty
again and the patient unadmitted). -/
theorem admit_discharge_roundTrip (h : Hospital) (p : Patient) (b : String)
    (hb : h.bedExists b = true) (hemp : h.occupantOf b = none)
    (hnadm : h.isAdmitted p = false) :
    ∃ h₁, h.admitPatient p b = .ok h₁ ∧ h₁.discharge p = .ok h := by
  have hadm : h.admitPatient p b = .ok { h with occupancy := (b, p) :: h.occupancy } := by
    unfold Hospital.admitPatient
    rw [if_pos hb, if_neg (by simp [hemp]), if_neg (by simp [hnadm])]
  exact ⟨_, hadm, Hospital.discharge_after_admit hadm⟩

/-- C9 witness: the round trip on the concrete one-bed hospital. -/
theorem admit_discharge_roundTrip_witness :
    ∃ h₁, miniHospital.admitPatient greedyFixturePatient "B0" = .ok h₁ ∧
      h₁.discharge greedyFixturePatient = .ok miniHospital :=
  admit_discharge_roundTrip miniHospital greedyFixturePatient "B0"
    (by decide) (by decide) (by decide)

/-- The hypothetical-evaluation pass leaves the threaded hospital state
unchanged: every successful hypothetical admission is reverted by the
subsequent discharge. -/
theorem greedyPass_state (p : Patient) (l : List (Nat × Bed)) (h : Hospital) :
    (greedyPass p l h).2 = h := by
  induction l generalizing h with
  | nil => rfl
  | cons e rest ih =>
    obtain ⟨i, b⟩ := e
    unfold greedyPass
    cases hadm : h.admitPatient p b.name with
    | ok h1 =>
      have hrev : h1.discharge p = .ok h := Hospital.discharge_after_admit hadm
      simp [hrev, Except.getD, ih]
    | error err => simp [ih]

/-- C6: a Greedy Agent suggestion call is side-effect-free — for every
hospital, patient and `top_n`, the hospital state threaded through the call
is returned exactly equal to the input state (each hypothetical admission
performed during the search is reverted by its discharge). -/
theorem greedy_suggestions_noMutation (h : Hospital) (p : Patient) (top_n : Nat) :
    (greedy_suggestions h p top_n).2 = h := by
  simp [greedy_suggestions, greedyPass_state]

/-- C10: `clear` discharges every admitted patient: afterwards no patient
is admitted and every bed of the topology is empty, while the ward / room /
bed topology (with its attached restrictions) and the hospital identity are
unchanged. -/
theorem clear_discharges_all (h : Hospital) :
    h.clear.patients = [] ∧ h.clear.get_empty_beds = h.beds ∧
      h.clear.wards = h.wards ∧ h.clear.name = h.name := by
  refine ⟨rfl, ?_, rfl, rfl⟩
  have hempty : ∀ s, Hospital.occupantOf { h with occupancy := [] } s = none :=
    fun s => rfl
  simp [Hospital.get_empty_beds, Hospital.clear, Hospital.beds, hempty]

/-- Each planner iteration rebuilds only the tree and the RNG state; the
real hospital field is passed through untouched. -/
theorem plannerLoop_real (arr : List (List Patient)) (γ : QQ) (maxP fuel : Nat)
    (k : Nat) (st : PlannerState) :
    (plannerLoop arr γ maxP fuel k st).real = st.real := by
  induction k generalizing st with
  | zero => rfl
  | succ k ih => rw [plannerLoop, ih]; rfl

/-- C2: the MCTS planner never mutates the real hospital object passed in —
for every hospital, arrival queue, discount factor, iteration budget and
seed, the caller's hospital threaded through `run_mcts` is returned equal
to its state before the call; the planner works only on the root's clone
held inside the tree. -/
theorem run_mcts_noMutation (h : Hospital) (arr : List (List Patient)) (γ : QQ)
    (n_iterations seed : Nat) :
    (run_mcts h arr γ n_iterations seed).2 = h := by
  simp [run_mcts, plannerLoop_real, plannerInit]

/-- Backpropagation reaches the node every iteration starts from: one
iteration increments its visit count by exactly one. -/
theorem mctsIteration_visits (arr : List (List Patient)) (γ : QQ) (maxP fuel : Nat)
    (node : MCTSNode) (s : Nat) :
    (mctsIteration arr γ maxP fuel node s).1.visits = node.visits + 1 := by
  cases fuel <;> cases node <;> rfl

/-- An iteration changes neither the snapshot nor the time step of the node
it starts from. -/
theorem mctsIteration_hospital (arr : List (List Patient)) (γ : QQ) (maxP fuel : Nat)
    (node : MCTSNode) (s : Nat) :
    (mctsIteration arr γ maxP fuel node s).1.hospital = node.hospital ∧
      (mctsIteration arr γ maxP fuel node s).1.timeStep = node.timeStep := by
  cases fuel <;> cases node <;> exact ⟨rfl, rfl⟩

/-- Over the planner loop, the root's visit count grows by exactly the
number of iterations performed. -/
theorem plannerLoop_root_visits (arr : List (List Patient)) (γ : QQ) (maxP fuel : Nat)
    (k : Nat) (st : PlannerState) :
    (plannerLoop arr γ maxP fuel k st).root.visits = st.root.visits + k := by
  induction k generalizing st with
  | zero => rfl
  | succ k ih =>
    rw [plannerLoop, ih]
    show (mctsIteration arr γ maxP fuel st.root st.rng).1.visits + k = _
    rw [mctsIteration_visits]
    omega

set_option maxRecDepth 100000 in
/-- C4: the root's visit count after `run_mcts` equals the configured
iteration budget exactly, for every input; and in the 4-bed scenario
(2 occupied beds, 2 empty, 1 arriving patient at t = 0, horizon 1,
50 iterations) the root has exactly 2 children, their visit counts sum to
50, and each entry of the planner output exposes a non-negative score. -/
theorem run_mcts_visit_budget :
    (∀ (h : Hospital) (arr : List (List Patient)) (γ : QQ) (n seed : Nat),
      (run_mcts h arr γ n seed).1.visits = n) ∧
    mctsScenarioRun.1.children.length = 2 ∧
    (mctsScenarioRun.1.children.map (·.visits)).sum = 50 ∧
    (construct_mcts_output mctsScenarioRun.1).all (fun e => 0 ≤ (e.score : Int)) = true := by
  refine ⟨?_, ?_, ?_, ?_⟩
  · intro h arr γ n seed
    show (plannerLoop arr γ _ _ n (plannerInit h seed)).root.visits = n
    rw [plannerLoop_root_visits]
    simp [plannerInit, MCTSNode.visits]
  · decide
  · decide
  · decide

/-- If a node has no children and its time step admits no legal action,
an iteration leaves it childless (expansion finds nothing to attach). -/
theorem mctsIteration_children_empty (arr : List (List Patient)) (γ : QQ)
    (maxP fuel : Nat) (node : MCTSNode) (s : Nat)
    (hkids : node.children = [])
    (hacts : legalActions (arr.getD node.timeStep [])
      node.hospital.get_empty_beds = []) :
    (mctsIteration arr γ maxP fuel node s).1.children = [] := by
  cases fuel with
  | zero =>
    cases node
    simpa [mctsIteration, MCTSNode.reVisit, MCTSNode.children] using hkids
  | succ fuel =>
    cases node with
    | mk h t a v tot kids =>
      simp only [MCTSNode.children] at hkids
      simp only [MCTSNode.hospital, MCTSNode.timeStep] at hacts
      subst hkids
      show (iterBody arr γ maxP _ (.mk h t a v tot []) s).1 = []
      simp only [iterBody]
      split
      · rfl
      · simp only [List.getD_eq_getElem?_getD] at hacts
        simp [hacts]

/-- The planner loop keeps a childless, actionless root childless. -/
theorem plannerLoop_root_children (arr : List (List Patient)) (γ : QQ)
    (maxP fuel k : Nat) (st : PlannerState)
    (hkids : st.root.children = [])
    (hacts : legalActions (arr.getD st.root.timeStep [])
      st.root.hospital.get_empty_beds = []) :
    (plannerLoop arr γ maxP fuel k st).root.children = [] := by
  induction k generalizing st with
  | zero => exact hkids
  | succ k ih =>
    rw [plannerLoop]
    apply ih
    · exact mctsIteration_children_empty arr γ maxP fuel st.root st.rng hkids hacts
    · have hh := mctsIteration_hospital arr γ maxP fuel st.root st.rng
      show legalActions (arr.getD (mctsIteration arr γ maxP fuel st.root st.rng).1.timeStep [])
        (mctsIteration arr γ maxP fuel st.root st.rng).1.hospital.get_empty_beds = []
      rw [hh.1, hh.2]
      exact hacts

/-- C8: with zero empty beds and one patient to place, the Greedy Agent's
suggestion list and the MCTS planner's recommendation output are both
empty, and both calls return normally (they are total functions into
result values, not exceptions). -/
theorem no_empty_beds_empty_recommendations (h : Hospital) (p : Patient)
    (top_n : Nat) (γ : QQ) (n seed : Nat)
    (hemp : h.get_empty_beds = []) :
    (greedy_suggestions h p top_n).1 = [] ∧
      construct_mcts_output (run_mcts h [[p]] γ n seed).1 = [] := by
  constructor
  · simp [greedy_suggestions, hemp, greedyPass]
  · have hacts : legalActions ([[p]].getD (plannerInit h seed).root.timeStep [])
        (plannerInit h seed).root.hospital.get_empty_beds = [] := by
      show legalActions [p] h.clone.get_empty_beds = []
      have hcl : h.clone = h := rfl
      rw [hcl, hemp]
      rfl
    have hroot := plannerLoop_root_children [[p]] γ (maxPenaltyNormalisation h)
      ([[p]].length + 1) n (plannerInit h seed) rfl hacts
    show ((plannerLoop [[p]] γ _ _ n (plannerInit h seed)).root.children.map _) = []
    rw [hroot]
    rfl

/-- C8 witness: the fully occupied one-bed hospital. -/
theorem no_empty_beds_empty_recommendations_witness :
    (greedy_suggestions fullHospital greedyFixturePatient 5).1 = [] ∧
      construct_mcts_output
        (run_mcts fullHospital [[greedyFixturePatient]] ⟨9, 10⟩ 20 7).1 = [] :=
  no_empty_beds_empty_recommendations fullHospital greedyFixturePatient 5
    ⟨9, 10⟩ 20 7 (by decide)

/-- The enumeration indices recorded by the hypothetical-evaluation pass
form a sublist of the input indices (failed admissions are skipped). -/
theorem greedyPass_idx_sublist (p : Patient) (l : List (Nat × Bed)) (h : Hospital) :
    ((greedyPass p l h).1.map (·.idx)).Sublist (l.map (·.1)) := by
  induction l generalizing h with
  | nil => simp [greedyPass]
  | cons e rest ih =>
    obtain ⟨i, b⟩ := e
    unfold greedyPass
    cases h.admitPatient p b.name with
    | ok h1 =>
      simpa using List.Sublist.cons₂ i (ih _)
    | error err =>
      simpa using List.Sublist.cons i (ih _)

/-- The candidates recorded by the hypothetical-evaluation pass carry
pairwise-distinct enumeration indices when started from an enumeration. -/
theorem greedy_suggestions_idx_nodup (h : Hospital) (p : Patient) :
    ((List.insertionSort suggestionLE
      (greedyPass p h.get_empty_beds.enum h).1).map (·.idx)).Nodup := by
  have hsub := greedyPass_idx_sublist p h.get_empty_beds.enum h
  have hnd : ((greedyPass p h.get_empty_beds.enum h).1.map (·.idx)).Nodup := by
    refine hsub.nodup ?_
    rw [show (h.get_empty_beds.enum.map (·.1)) = List.map Prod.fst h.get_empty_beds.enum
      from rfl, List.enum_map_fst]
    exact List.nodup_range _
  exact ((List.perm_insertionSort suggestionLE _).map (·.idx)).nodup_iff.mpr hnd

/-- C3: for every hospital, patient and `top_n`, the Greedy Agent's
suggestion list (bed, score, violated names) is ordered ascending by score
with ties broken by bed identity (enumeration) order; and on the fixture
with two empty beds where bed "BX" incurs a weight-10 violation and bed
"BY" a weight-3 violation, "BY" ranks first. -/
theorem greedy_suggestions_sorted :
    (∀ (h : Hospital) (p : Patient) (top_n : Nat),
      List.Pairwise (fun a b : Suggestion =>
        a.score < b.score ∨ (a.score = b.score ∧ a.idx < b.idx))
        (greedy_suggestions h p top_n).1) ∧
    ((greedy_suggestions greedyFixtureHospital greedyFixturePatient 5).1.map
      fun e => (e.bed, e.score)) = [("BY", 3), ("BX", 10)] := by
  constructor
  · intro h p top_n
    have hsorted : List.Pairwise suggestionLE
        (List.insertionSort suggestionLE (greedyPass p h.get_empty_beds.enum h).1) :=
      List.sorted_insertionSort suggestionLE _
    have hnd := greedy_suggestions_idx_nodup h p
    have hne : List.Pairwise (fun a b : Suggestion => a.idx ≠ b.idx)
        (List.insertionSort suggestionLE (greedyPass p h.get_empty_beds.enum h).1) :=
      List.pairwise_map.mp hnd
    have hcomb := hsorted.and hne
    have hstrict : List.Pairwise (fun a b : Suggestion =>
        a.score < b.score ∨ (a.score = b.score ∧ a.idx < b.idx))
        (List.insertionSort suggestionLE (greedyPass p h.get_empty_beds.enum h).1) := by
      refine hcomb.imp ?_
      rintro a b ⟨hle | ⟨heq, hle⟩, hne'⟩
      · exact Or.inl hle
      · exact Or.inr ⟨heq, lt_of_le_of_ne hle hne'⟩
    exact List.Pairwise.sublist (List.take_sublist top_n _) hstrict
  · decide

/-- The reward accumulation loop computes `acc + gp · Σ_i γ^i (1 − pᵢ/maxP)`. -/
theorem computeRewardGo_spec (γ : QQ) (maxP : Nat) (hM : 0 < maxP) (hγ : γ.wf) :
    ∀ (ps : List Nat) (acc gp : QQ), acc.wf → gp.wf →
      QQ.toRat (computeRewardGo γ maxP ps acc gp) =
        QQ.toRat acc + QQ.toRat gp *
          ∑ i ∈ Finset.range ps.length,
            (QQ.toRat γ) ^ i * (1 - (ps.getD i 0 : ℚ) / (maxP : ℚ)) := by
  intro ps
  induction ps with
  | nil =>
    intro acc gp ha hg
    simp [computeRewardGo]
  | cons p ps ih =>
    intro acc gp ha hg
    have hone : QQ.wf QQ.one := Nat.one_pos
    have hp : QQ.wf ⟨(p : Int), 1⟩ := Nat.one_pos
    have hterm : (QQ.one.sub (QQ.divNat ⟨(p : Int), 1⟩ maxP)).wf :=
      QQ.wf_sub hone (QQ.wf_divNat hp hM)
    rw [computeRewardGo,
      ih _ _ (QQ.wf_add ha (QQ.wf_mul hg hterm)) (QQ.wf_mul hg hγ),
      QQ.toRat_add ha (QQ.wf_mul hg hterm), QQ.toRat_mul, QQ.toRat_mul,
      QQ.toRat_sub hone (QQ.wf_divNat hp hM), QQ.toRat_divNat, QQ.toRat_one]
    have htor : QQ.toRat ⟨(p : Int), 1⟩ = (p : ℚ) := by
      simp [QQ.toRat]
    rw [htor, List.length_cons, Finset.sum_range_succ']
    have hfact : ∑ i ∈ Finset.range ps.length,
        (QQ.toRat γ) ^ (i + 1) * (1 - ((p :: ps).getD (i + 1) 0 : ℚ) / (maxP : ℚ)) =
        QQ.toRat γ * ∑ i ∈ Finset.range ps.length,
          (QQ.toRat γ) ^ i * (1 - (ps.getD i 0 : ℚ) / (maxP : ℚ)) := by
      rw [Finset.mul_sum]
      refine Finset.sum_congr rfl ?_
      intro i _
      rw [List.getD_cons_succ, pow_succ]
      ring
    rw [hfact, List.getD_cons_zero]
    ring

/-- One iteration adds the returned reward sample to the start node's
cumulative reward (and, with `mctsIteration_visits`, bumps its count). -/
theorem mctsIteration_totalReward (arr : List (List Patient)) (γ : QQ)
    (maxP fuel : Nat) (node : MCTSNode) (s : Nat) :
    (mctsIteration arr γ maxP fuel node s).1.totalReward =
      node.totalReward.add (mctsIteration arr γ maxP fuel node s).2.1 := by
  cases fuel <;> cases node <;> rfl

/-- C5: the backpropagated rollout reward equals the discounted sum
`R = Σ_{i} γ^i (1 − penalty_i / maxP)` with the configured discount factor
γ in [0,1); and along the backpropagation path a node's visit count
increases by 1 while its mean reward becomes the running average
`(mean·visits + R)/(visits + 1)` of the previous samples with the new one. -/
theorem mcts_reward_backprop (γ : QQ) (maxP : Nat) (pens : List Nat)
    (arr : List (List Patient)) (fuel : Nat) (node : MCTSNode) (s : Nat)
    (hγwf : γ.wf) (hγ0 : 0 ≤ γ.num) (hγ1 : γ.num < (γ.den : Int)) (hM : 0 < maxP)
    (hv : 0 < node.visits) (htot : node.totalReward.wf)
    (hR : (mctsIteration arr γ maxP fuel node s).2.1.wf) :
    (0 ≤ QQ.toRat γ ∧ QQ.toRat γ < 1) ∧
    QQ.toRat (computeReward γ maxP pens) =
      ∑ i ∈ Finset.range pens.length,
        (QQ.toRat γ) ^ i * (1 - (pens.getD i 0 : ℚ) / (maxP : ℚ)) ∧
    (mctsIteration arr γ maxP fuel node s).1.visits = node.visits + 1 ∧
    QQ.toRat (mctsIteration arr γ maxP fuel node s).1.meanReward =
      (QQ.toRat node.meanReward * node.visits +
        QQ.toRat (mctsIteration arr γ maxP fuel node s).2.1) / (node.visits + 1) := by
  have hden : (0 : ℚ) < (γ.den : ℚ) := by exact_mod_cast hγwf
  refine ⟨⟨?_, ?_⟩, ?_, mctsIteration_visits arr γ maxP fuel node s, ?_⟩
  · exact div_nonneg (by exact_mod_cast hγ0) hden.le
  · rw [QQ.toRat, div_lt_one hden]
    exact_mod_cast hγ1
  · exact computeRewardGo_spec γ maxP hM hγwf pens QQ.zero QQ.one
      Nat.one_pos Nat.one_pos |>.trans (by rw [QQ.toRat_zero, QQ.toRat_one]; ring)
  · have hvq : ((node.visits : ℚ)) ≠ 0 := Nat.cast_ne_zero.mpr hv.ne'
    rw [MCTSNode.meanReward, MCTSNode.meanReward,
      mctsIteration_totalReward, mctsIteration_visits,
      QQ.toRat_divNat, QQ.toRat_divNat, QQ.toRat_add htot hR]
    rw [div_mul_cancel₀ _ hvq]
    push_cast
    ring

/-- C5 witness: the reward/backpropagation facts instantiated at the
walkthrough discount factor 9/10, normalisation 15, a concrete penalty
trajectory and the concrete visited node. -/
theorem mcts_reward_backprop_witness :
    (0 ≤ QQ.toRat ⟨9, 10⟩ ∧ QQ.toRat ⟨9, 10⟩ < 1) ∧
    QQ.toRat (computeReward ⟨9, 10⟩ 15 [0, 5]) =
      ∑ i ∈ Finset.range ([0, 5] : List Nat).length,
        (QQ.toRat ⟨9, 10⟩) ^ i * (1 - (([0, 5] : List Nat).getD i 0 : ℚ) / (15 : ℚ)) ∧
    (mctsIteration [[mctsScenarioPatient]] ⟨9, 10⟩ 15 2 sampleNode 3).1.visits =
      sampleNode.visits + 1 ∧
    QQ.toRat (mctsIteration [[mctsScenarioPatient]] ⟨9, 10⟩ 15 2 sampleNode 3).1.meanReward =
      (QQ.toRat sampleNode.meanReward * sampleNode.visits +
        QQ.toRat (mctsIteration [[mctsScenarioPatient]] ⟨9, 10⟩ 15 2 sampleNode 3).2.1) /
          (sampleNode.visits + 1) :=
  mcts_reward_backprop ⟨9, 10⟩ 15 [0, 5] [[mctsScenarioPatient]] 2 sampleNode 3
    (by decide) (by decide) (by decide) (by decide) (by decide) (by decide) (by decide)

/-- The ramp value `dischargeProbQQ` interpreted in ℚ. -/
theorem dischargeProbQQ_toRat (los elos : Nat) :
    QQ.toRat (dischargeProbQQ los elos) =
      if elos = 0 then 1 else if elos ≤ los then 1 else (los : ℚ) / (elos : ℚ) := by
  unfold dischargeProbQQ
  split
  · simp [QQ.toRat_one]
  · split
    · simp_all [QQ.toRat_one]
    · simp_all [QQ.toRat]

/-- C7: for a fixed patient, the simulator's discharge probability is
monotonically non-decreasing in `length_of_stay − expected_length_of_stay`,
and it always lies in [0, 1]. -/
theorem dischargeProb_monotone_bounded :
    (∀ (p : Patient) (los₁ los₂ : Nat),
      (los₁ : Int) - (p.expected_length_of_stay : Int) ≤
        (los₂ : Int) - (p.expected_length_of_stay : Int) →
      QQ.toRat ({ p with length_of_stay := los₁ } : Patient).dischargeProb ≤
        QQ.toRat ({ p with length_of_stay := los₂ } : Patient).dischargeProb) ∧
    (∀ p : Patient,
      0 ≤ QQ.toRat p.dischargeProb ∧ QQ.toRat p.dischargeProb ≤ 1) := by
  constructor
  · intro p los₁ los₂ hdiff
    have hle : los₁ ≤ los₂ := by omega
    show QQ.toRat (dischargeProbQQ los₁ p.expected_length_of_stay) ≤
      QQ.toRat (dischargeProbQQ los₂ p.expected_length_of_stay)
    rw [dischargeProbQQ_toRat, dischargeProbQQ_toRat]
    set e := p.expected_length_of_stay with he
    by_cases h0 : e = 0
    · simp [h0]
    · have hepos : (0 : ℚ) < (e : ℚ) := by
        exact_mod_cast Nat.pos_of_ne_zero h0
      by_cases h1 : e ≤ los₁
      · have h2 : e ≤ los₂ := h1.trans hle
        simp [h0, h1, h2]
      · by_cases h2 : e ≤ los₂
        · simp only [h0, h1, h2, if_false, if_true]
          rw [div_le_one hepos]
          exact_mod_cast Nat.le_of_not_le h1
        · simp only [h0, h1, h2, if_false]
          gcongr
  · intro p
    show 0 ≤ QQ.toRat (dischargeProbQQ p.length_of_stay p.expected_length_of_stay) ∧
      QQ.toRat (dischargeProbQQ p.length_of_stay p.expected_length_of_stay) ≤ 1
    rw [dischargeProbQQ_toRat]
    split
    · norm_num
    · split
      · norm_num
      · constructor
        · positivity
        · rw [div_le_one (by positivity)]
          have : p.length_of_stay ≤ p.expected_length_of_stay := by omega
          exact_mod_cast this

/-- C7 witness: monotonicity applied at a concrete patient and a concrete
pair of stay lengths. -/
theorem dischargeProb_monotone_bounded_witness :
    QQ.toRat ({ greedyFixturePatient with length_of_stay := 2 } : Patient).dischargeProb ≤
      QQ.toRat ({ greedyFixturePatient with length_of_stay := 4 } : Patient).dischargeProb ∧
    (0 ≤ QQ.toRat greedyFixturePatient.dischargeProb ∧
      QQ.toRat greedyFixturePatient.dischargeProb ≤ 1) :=
  ⟨dischargeProb_monotone_bounded.1 greedyFixturePatient 2 4 (by decide),
    dischargeProb_monotone_bounded.2 greedyFixturePatient⟩
